import Mathlib

/-!
Verification of the go-diameter AVP codec and peer state machine
(repository `ibrohimislam/go-diameter`).

The definitions below are a shallow embedding of the Go sources:

* `diam/avp.go` — the AVP structure, `NewAVP`, `AVP.DecodeFromBytes`
  (via `DecodeAVP`), `AVP.Serialize`/`AVP.SerializeTo`, `AVP.Len`,
  `headerLen`, `uint24to32`/`uint32to24`.
* `diam/sm/cer.go` — `handleCER`, `errorCEA`, `successCEA`.
* the `sm` client (`client.go`) — `Client.handshake`, `Client.dwr`.

Go byte slices are modelled as `List Nat` (each entry a byte value).
A slice expression `b[lo:hi]` panics in Go when `lo > hi` or `hi` exceeds
the capacity; every place where the Go code can panic is modelled as an
explicit `.outOfRange` error value, so that decoding and serializing are
total Lean functions whose error cases record the Go runtime behaviour.
Machine integers are `Nat` with explicit `% 2^w` where the Go code
converts or wraps; `uint8`/`uint32` struct fields are plain `Nat`
(call sites of interest stay within the Go ranges, and theorems carry
explicit bounds where the width matters).

The `datatype` and `dict` packages are not part of the given sources
(only their call sites are), so they are modelled from the spec, see
`Dval` and `Dict` below.
-/

/-- Big-endian 4-byte encoding of a value, wrapping to `uint32` first:
model of Go's `binary.BigEndian.PutUint32`. -/
def be32 (x : Nat) : List Nat :=
  [x % 4294967296 / 16777216, x % 16777216 / 65536, x % 65536 / 256, x % 256]

/-- Big-endian value of a byte list: model of Go's
`binary.BigEndian.Uint32` (callers pass exactly 4 bytes). -/
def beVal (bs : List Nat) : Nat :=
  bs.foldl (fun acc b => acc * 256 + b) 0

/-- Model of `uint24to32` from the `diam` package: big-endian value of a
3-byte slice. -/
def uint24to32 (bs : List Nat) : Nat :=
  bs.getD 0 0 * 65536 + bs.getD 1 0 * 256 + bs.getD 2 0

/-- Model of `uint32to24`: the low 24 bits of a `uint32`, big-endian. -/
def uint32to24 (x : Nat) : List Nat :=
  [x % 16777216 / 65536, x % 65536 / 256, x % 256]

/-- Rounding up to a multiple of 4: the Go expression `(n + 3) / 4 * 4`
used by `AVP.Len`. -/
def pad4 (n : Nat) : Nat := (n + 3) / 4 * 4

/-- Modelled from the spec (§4.1, §6): the dictionary-declared data types.
The given sources do not include the `datatype` package, only its use.
Float32/Float64 (IEEE-754), the signed integer types and the Grouped type
are omitted from the model; no claim below depends on them. -/
inductive DType where
  | octetString
  | utf8String
  | diameterIdentity
  | unsigned32
  | time
  | unsigned64
  deriving DecidableEq, Repr

/-- Modelled from the spec (§4.1): a decoded Diameter data value
(`datatype.Type` in the sources). The constructor fixes the declared
type; the payload wire forms are the spec's (raw bytes for the string
kinds, 4- or 8-byte big-endian for the integer kinds). -/
inductive Dval where
  | octetString (bs : List Nat)
  | utf8String (bs : List Nat)
  | diameterIdentity (bs : List Nat)
  | unsigned32 (n : Nat)
  | time (n : Nat)
  | unsigned64 (n : Nat)
  deriving DecidableEq, Repr

/-- Modelled from the spec: `Type()` of a data value. -/
def Dval.dtype : Dval → DType
  | .octetString _ => .octetString
  | .utf8String _ => .utf8String
  | .diameterIdentity _ => .diameterIdentity
  | .unsigned32 _ => .unsigned32
  | .time _ => .time
  | .unsigned64 _ => .unsigned64

/-- Modelled from the spec: `Len()`, the payload byte count without
padding. -/
def Dval.dlen : Dval → Nat
  | .octetString bs => bs.length
  | .utf8String bs => bs.length
  | .diameterIdentity bs => bs.length
  | .unsigned32 _ => 4
  | .time _ => 4
  | .unsigned64 _ => 8

/-- Modelled from the spec: `Padding() = (-Len()) mod 4`. -/
def Dval.pad (d : Dval) : Nat := (4 - d.dlen % 4) % 4

/-- Modelled from the spec: `Serialize()`, the payload wire bytes. -/
def Dval.wire : Dval → List Nat
  | .octetString bs => bs
  | .utf8String bs => bs
  | .diameterIdentity bs => bs
  | .unsigned32 n => be32 n
  | .time n => be32 n
  | .unsigned64 n =>
      [x8 n 7, x8 n 6, x8 n 5, x8 n 4, x8 n 3, x8 n 2, x8 n 1, x8 n 0]
where
  /-- byte `i` (from the low end) of `n` wrapped to `uint64`. -/
  x8 (n i : Nat) : Nat := n % 18446744073709551616 / 256 ^ i % 256

/-- A value is within its Go machine-integer range (`uint32`/`uint64`
fields of the `datatype` package). -/
def Dval.WF : Dval → Prop
  | .octetString _ => True
  | .utf8String _ => True
  | .diameterIdentity _ => True
  | .unsigned32 n => n < 4294967296
  | .time n => n < 4294967296
  | .unsigned64 n => n < 18446744073709551616

instance : DecidablePred Dval.WF := by
  intro d
  cases d <;> simp [Dval.WF] <;> infer_instance

/-- Errors of the AVP codec. `shortHeader` and `truncated` are the two
`fmt.Errorf` failures of `AVP.DecodeFromBytes`; `dictMiss` is a failed
dictionary lookup; `payloadShort` is the dead third length check;
`badLength` is a datatype decode failure; `nilData` is the
`AVP.Serialize`/`SerializeTo` nil-payload error; `outOfRange` marks an
input on which the Go code panics with a slice-bounds violation. -/
inductive CodecErr where
  | shortHeader
  | truncated
  | dictMiss
  | payloadShort
  | badLength
  | nilData
  | outOfRange
  deriving DecidableEq, Repr

/-- Equality of `Except` results is decidable componentwise, so concrete
codec runs can be checked by evaluation. -/
instance {e a : Type} [DecidableEq e] [DecidableEq a] :
    DecidableEq (Except e a) := fun x y =>
  match x, y with
  | .error u, .error v =>
      match decEq u v with
      | isTrue h => isTrue (h ▸ rfl)
      | isFalse h => isFalse fun hh => h (by injection hh)
  | .error _, .ok _ => isFalse fun hh => Except.noConfusion hh
  | .ok _, .error _ => isFalse fun hh => Except.noConfusion hh
  | .ok u, .ok v =>
      match decEq u v with
      | isTrue h => isTrue (h ▸ rfl)
      | isFalse h => isFalse fun hh => h (by injection hh)

/-- Modelled from the spec (§4.1): `datatype.Decode(declaredType, payload)`.
The string kinds accept any payload; the fixed-width kinds require their
exact wire size. -/
def dtypeDecode (t : DType) (p : List Nat) : Except CodecErr Dval :=
  match t with
  | .octetString => .ok (.octetString p)
  | .utf8String => .ok (.utf8String p)
  | .diameterIdentity => .ok (.diameterIdentity p)
  | .unsigned32 =>
      if p.length = 4 then .ok (.unsigned32 (beVal p)) else .error .badLength
  | .time =>
      if p.length = 4 then .ok (.time (beVal p)) else .error .badLength
  | .unsigned64 =>
      if p.length = 8 then .ok (.unsigned64 (beVal p)) else .error .badLength

/-- Modelled from the spec (§2, §6): the dictionary query surface
`FindAVPWithVendor(application, code, vendor)`, as a total lookup
function returning the declared type on success. -/
def Dict : Type := Nat → Nat → Nat → Option DType

/-- The AVP structure of `diam/avp.go`: Code, Flags, Length (the Go `int`
field, which only ever holds the non-negative values `headerLen+Data.Len()`
or a decoded `uint24`, hence `Nat`), VendorID, and Data, where Go's nil
`datatype.Type` interface is `Option.none`. -/
structure AVP where
  Code : Nat
  Flags : Nat
  Length : Nat
  VendorID : Nat
  Data : Option Dval
  deriving DecidableEq, Repr

/-- `headerLen` of `diam/avp.go` as a function of the flags byte:
12 when the V-bit (0x80) is set, 8 otherwise. -/
def headerLenOf (flags : Nat) : Nat :=
  if flags &&& 128 = 128 then 12 else 8

def AVP.headerLen (a : AVP) : Nat := headerLenOf a.Flags

/-- `NewAVP` of `diam/avp.go`: builds the record, sets
`Length = headerLen() + Data.Len()` (computed from the flags as passed),
and only afterwards ORs in the V-bit when `vendor > 0`. -/
def newAVP (code flags vendor : Nat) (data : Dval) : AVP :=
  let a : AVP :=
    { Code := code, Flags := flags, VendorID := vendor,
      Data := some data, Length := headerLenOf flags + data.dlen }
  if vendor > 0 ∧ ¬a.Flags &&& 128 = 128 then
    { a with Flags := a.Flags ||| 128 }
  else a

/-- `AVP.Len` of `diam/avp.go`: `(a.Length + 3) / 4 * 4`. -/
def AVP.goLen (a : AVP) : Nat := pad4 a.Length

/-- `AVP.SerializeTo` of `diam/avp.go`, over a buffer `b`.
The Go function writes the header into `b[0:8]`, the vendor id into
`b[8:12]` when the V-bit is set, copies the payload at `b[hl:]`, reslices
`b[hl+len(payload):]` and zeroes `Data.Padding()` bytes there.  Each Go
slice expression that can exceed the buffer is modelled by a bounds
check returning `.outOfRange` (the Go panic); on success the returned
list is the written buffer (bytes past the padding keep their input
values, matching Go's in-place writes). -/
def serializeTo (a : AVP) (b : List Nat) : Except CodecErr (List Nat) :=
  match a.Data with
  | none => .error .nilData
  | some d =>
    -- b[0:4], b[4], b[5:8] need 8 bytes
    if b.length < 8 then .error .outOfRange
    else if a.Flags &&& 128 = 128 ∧ b.length < 12 then
      -- b[8:12] for the vendor id
      .error .outOfRange
    else
      let hl := headerLenOf a.Flags
      let payload := d.wire
      -- the reslice b[hl+len(payload):]
      if b.length < hl + payload.length then .error .outOfRange
      -- the padding loop writes Data.Padding() bytes after the payload
      else if b.length < hl + payload.length + d.pad then .error .outOfRange
      else
        .ok (be32 a.Code ++ [a.Flags] ++ uint32to24 (hl + d.dlen) ++
             (if a.Flags &&& 128 = 128 then be32 a.VendorID else []) ++
             payload ++ List.replicate d.pad 0 ++
             b.drop (hl + payload.length + d.pad))

/-- `AVP.Serialize` of `diam/avp.go`: allocate `make([]byte, a.Len())`
(zero-filled) and run `SerializeTo`. -/
def serialize (a : AVP) : Except CodecErr (List Nat) :=
  match a.Data with
  | none => .error .nilData
  | some _ => serializeTo a (List.replicate a.goLen 0)

/-- Second half of `AVP.DecodeFromBytes` (after the vendor branch):
dictionary lookup, the `len(payload) < bodyLen` check, and the datatype
decode.  Grouped AVPs are outside the modelled `DType`, so the grouped
recursion of the source is never reached here. -/
def decodeTail (app : Nat) (dict : Dict) (code flags length vendor hdr : Nat)
    (payload : List Nat) : Except CodecErr AVP :=
  match dict app code vendor with
  | none => .error .dictMiss
  | some t =>
    let bodyLen := length - hdr
    if payload.length < bodyLen then .error .payloadShort
    else
      match dtypeDecode t payload with
      | .error e => .error e
      | .ok d =>
          .ok { Code := code, Flags := flags, Length := length,
                VendorID := vendor, Data := some d }

/-- `DecodeAVP`/`AVP.DecodeFromBytes` of `diam/avp.go` on a fresh AVP.
`data[0:4]` is the code, `data[4]` the flags, `uint24to32(data[5:8])` the
length; fewer than 8 input bytes fail, an input shorter than the declared
length fails, then the input is cut to the declared length.  When the
V-bit is set the Go code slices `data[8:12]` and `data[12:]`: for a
declared length below 12 the second slice (or, for a tight buffer, the
first) panics, modelled as `.outOfRange`; without the V-bit `data[8:]`
panics for a declared length below 8. -/
def decodeAVP (data : List Nat) (app : Nat) (dict : Dict) :
    Except CodecErr AVP :=
  let dl := data.length
  if dl < 8 then .error .shortHeader
  else
    let code := beVal (data.take 4)
    let flags := data.getD 4 0
    let length := uint24to32 ((data.drop 5).take 3)
    if dl < length then .error .truncated
    else
      let data2 := data.take length
      if flags &&& 128 = 128 then
        if length < 12 then .error .outOfRange
        else
          decodeTail app dict code flags length
            (beVal ((data2.drop 8).take 4)) 12 (data2.drop 12)
      else
        if length < 8 then .error .outOfRange
        else decodeTail app dict code flags length 0 8 (data2.drop 8)

/-!
## Peer state machine models

`diam/sm/cer.go` (in the sources) uses the `diam.Message`, `diam.Conn`,
`smpeer` and `smparser` packages, which are not part of the given
sources.  Those parts are modelled from the spec:

* `Msg` carries the header fields of §3 (command code, application id,
  HopByHop, EndToEnd, command flags) plus the answer payload the CER
  handler builds (a result code and a list of added AVPs).
* `Msg.answer` is `Message.Answer` per §4.3: a new message with R and T
  cleared, P copied, the same command code and application id, copied
  HopByHop/EndToEnd, and the Result-Code pre-populated.
* `ConnState` is the per-connection state of §4.5 the handler touches:
  the context's peer-metadata slot (written once by the handshake),
  the ordered list of written messages, and the closed flag.
* `smparser.CER.Parse` is not in the sources; its outcome is a
  parameter (`CerParse`): the populated CER record, the optional failed
  AVP and whether parsing failed.  AVPs held by the parsed CER are
  identified by tokens (`Nat`), so the pointer comparison
  `failedAVP == cer.InbandSecurityID` of `errorCEA` becomes a token
  comparison.
-/

/-- AVPs appended to an answer by `errorCEA`/`successCEA` of
`diam/sm/cer.go`.  `failedGrouped` is the Failed-AVP grouped AVP with its
child AVP tokens; `fromCER` is an AVP copied from the parsed CER by
`AddAVP`. -/
inductive OutAVP where
  | originHost (v : Nat)
  | originRealm (v : Nat)
  | hostIPAddress
  | vendorID (v : Nat)
  | productName (v : Nat)
  | firmwareRevision (v : Nat)
  | fromCER (token : Nat)
  | failedGrouped (children : List Nat)
  | resultCodeAVP (v : Nat)
  deriving DecidableEq, Repr

/-- A Diameter message as far as the modelled handlers observe it. -/
structure Msg where
  cmdCode : Nat
  appID : Nat
  hopByHop : Nat
  endToEnd : Nat
  flags : Nat
  avps : List OutAVP
  deriving DecidableEq, Repr

/-- Command-flag bit masks of the `diam` package: Request 0x80,
Proxiable 0x40, Error 0x20, Retransmit (T) 0x10. -/
def RequestFlag : Nat := 128
def ProxiableFlag : Nat := 64
def ErrorFlag : Nat := 32
def RetransmitFlag : Nat := 16

/-- Result codes of the `diam` package (RFC 6733):
DIAMETER_SUCCESS, DIAMETER_NO_COMMON_APPLICATION,
DIAMETER_NO_COMMON_SECURITY. -/
def Success : Nat := 2001
def NoCommonApplication : Nat := 5010
def NoCommonSecurity : Nat := 5017

/-- Modelled from the spec (§4.3): `m.Answer(resultCode)` builds a new
message with R=0, T=0, P copied, E clear (the caller may OR it in),
same command code and application id, copied HopByHop/EndToEnd, and the
Result-Code AVP pre-populated. -/
def Msg.answer (m : Msg) (resultCode : Nat) : Msg :=
  { cmdCode := m.cmdCode, appID := m.appID,
    hopByHop := m.hopByHop, endToEnd := m.endToEnd,
    flags := m.flags &&& ProxiableFlag,
    avps := [.resultCodeAVP resultCode] }

/-- The connection state observed by `handleCER`: the peer-metadata
slot of the connection context (`smpeer.FromContext`/`NewContext`), the
messages written so far, and whether `Close` was called. -/
structure ConnState where
  ctxPeer : Option Nat
  sent : List Msg
  closed : Bool
  deriving DecidableEq, Repr

/-- The `sm.Settings` fields used by `errorCEA`/`successCEA`. -/
structure Settings where
  OriginHost : Nat
  OriginRealm : Nat
  VendorID : Nat
  ProductName : Nat
  FirmwareRevision : Nat
  deriving DecidableEq, Repr

/-- The CER record populated by `smparser.CER.Parse`, with AVPs as
tokens: the optional Origin-State-Id and Inband-Security-Id AVPs and
the application-id AVP lists forwarded by `successCEA`. -/
structure CERData where
  originStateID : Option Nat
  inbandSecurityID : Option Nat
  acctApplicationID : List Nat
  authApplicationID : List Nat
  vendorSpecificApplicationID : List Nat
  deriving DecidableEq, Repr

/-- The outcome of `cer.Parse(m)`: the populated record, the returned
`failedAVP`, and whether `err != nil`. -/
structure CerParse where
  cer : CERData
  failedAVP : Option Nat
  failed : Bool
  deriving DecidableEq, Repr

/-- `errorCEA` of `diam/sm/cer.go` (message construction): an answer
with the E-bit set, result code `NoCommonSecurity` when the failed AVP
is the CER's Inband-Security-Id AVP (a pointer comparison in Go, a
token comparison here) and `NoCommonApplication` otherwise, carrying
the origin/host/product AVPs, the CER's Origin-State-Id when present,
the Failed-AVP grouped AVP holding exactly the failed AVP, and the
firmware revision when nonzero. -/
def errorCEAMsg (cfg : Settings) (m : Msg) (cer : CERData)
    (failedAVP : Nat) : Msg :=
  let a := m.answer
    (if cer.inbandSecurityID = some failedAVP then NoCommonSecurity
     else NoCommonApplication)
  let a := { a with flags := a.flags ||| ErrorFlag }
  { a with avps := a.avps ++
      [.originHost cfg.OriginHost, .originRealm cfg.OriginRealm,
       .hostIPAddress, .vendorID cfg.VendorID,
       .productName cfg.ProductName] ++
      (match cer.originStateID with
       | some t => [.fromCER t]
       | none => []) ++
      [.failedGrouped [failedAVP]] ++
      (if cfg.FirmwareRevision ≠ 0 then
        [.firmwareRevision cfg.FirmwareRevision]
       else []) }

/-- `successCEA` of `diam/sm/cer.go` (message construction): a Success
answer carrying the origin/host/product AVPs, the CER's Origin-State-Id
when present, the CER's application-id AVPs, and the firmware revision
when nonzero. -/
def successCEAMsg (cfg : Settings) (m : Msg) (cer : CERData) : Msg :=
  let a := m.answer Success
  { a with avps := a.avps ++
      [.originHost cfg.OriginHost, .originRealm cfg.OriginRealm,
       .hostIPAddress, .vendorID cfg.VendorID,
       .productName cfg.ProductName] ++
      (match cer.originStateID with
       | some t => [.fromCER t]
       | none => []) ++
      (cer.acctApplicationID ++ cer.authApplicationID ++
       cer.vendorSpecificApplicationID).map .fromCER ++
      (if cfg.FirmwareRevision ≠ 0 then
        [.firmwareRevision cfg.FirmwareRevision]
       else []) }

/-- `handleCER` of `diam/sm/cer.go`.  If the connection context already
holds peer metadata the handler returns at once (retransmission).
Otherwise it parses the CER: on failure with a failed AVP it writes the
error CEA and closes; on failure without one it closes without an
answer; on success it writes the success CEA and stores the peer
metadata in the context (`smpeer.FromCER`, a fresh token here).  The
host-ip parse and `WriteTo` of the answer are modelled as succeeding;
the handshake-notification channel send has no observable effect on the
connection. -/
def handleCER (cfg : Settings) (parse : Msg → CerParse)
    (meta : Nat) (c : ConnState) (m : Msg) : ConnState :=
  match c.ctxPeer with
  | some _ => c
  | none =>
    let pr := parse m
    if pr.failed then
      match pr.failedAVP with
      | some fa =>
          { c with sent := c.sent ++ [errorCEAMsg cfg m pr.cer fa],
                   closed := true }
      | none => { c with closed := true }
    else
      { c with sent := c.sent ++ [successCEAMsg cfg m pr.cer],
               ctxPeer := some meta }

/-!
## Client handshake and watchdog loops

`Client.handshake` and `Client.dwr` (from the `sm` client source file)
run `for i := 0; i < MaxRetransmits+1; i++ { m.WriteTo(c); select … }`.
The same message value `m` is written on every iteration.  The select
outcome of each iteration — a CEA arriving on the answer channel
(carrying a nil or non-nil error), or the retransmit interval elapsing —
is modelled as an environment function of the iteration index; real-time
durations are abstracted away.  `WriteTo` (not in the sources) is
modelled from the spec §4.5 as appending the message unchanged to the
connection's ordered outgoing frames, always succeeding.
-/

/-- Outcome of one handshake `select`: CEA with nil error, CEA with a
non-nil error, or the retransmit timer firing. -/
inductive HsEvent where
  | ceaOk
  | ceaErr
  | timeout
  deriving DecidableEq, Repr

/-- Result of `Client.handshake`: success, a CEA error returned to the
caller, or `ErrHandshakeTimeout` after the loop is exhausted. -/
inductive HsOutcome where
  | ok
  | ceaError
  | timeout
  deriving DecidableEq, Repr

/-- The observable trace of a handshake: the CER writes in order,
the outcome, and whether the client called `Close`. -/
structure HsTrace where
  sent : List Msg
  outcome : HsOutcome
  closed : Bool
  deriving DecidableEq, Repr

/-- The `for` loop of `Client.handshake`, by remaining iterations `n`
(starting at `MaxRetransmits+1`) and iteration index `i`.  Each
iteration writes `m`, then selects: a CEA ends the loop (without
closing; a nil error returns the connection, a non-nil error is
returned to the caller), a timeout continues.  When the loop ends
without a CEA the client closes and returns `ErrHandshakeTimeout`. -/
def hsRun (m : Msg) (env : Nat → HsEvent) : Nat → Nat → HsTrace
  | 0, _ => { sent := [], outcome := .timeout, closed := true }
  | n + 1, i =>
    match env i with
    | .ceaOk => { sent := [m], outcome := .ok, closed := false }
    | .ceaErr => { sent := [m], outcome := .ceaError, closed := false }
    | .timeout =>
        let t := hsRun m env n (i + 1)
        { t with sent := m :: t.sent }

/-- `Client.handshake`: the loop runs `MaxRetransmits + 1` times. -/
def clientHandshake (maxRetransmits : Nat) (m : Msg)
    (env : Nat → HsEvent) : HsTrace :=
  hsRun m env (maxRetransmits + 1) 0

/-- The `for` loop of `Client.dwr`, by remaining iterations and
iteration index; `env i = true` means the DWA channel fired in
iteration `i`.  Returns the sent messages and whether the client closed
(the watchdog closes exactly when no DWA arrived in any iteration). -/
def dwrRun (m : Msg) (env : Nat → Bool) : Nat → Nat → List Msg × Bool
  | 0, _ => ([], true)
  | n + 1, i =>
    if env i then ([m], false)
    else
      let t := dwrRun m env n (i + 1)
      (m :: t.1, t.2)

/-- `Client.dwr`: the loop runs `MaxRetransmits + 1` times. -/
def clientDwr (maxRetransmits : Nat) (m : Msg) (env : Nat → Bool) :
    List Msg × Bool :=
  dwrRun m env (maxRetransmits + 1) 0

/-- A dictionary resolving every triple to Unsigned32, used by concrete
instances below. -/
def dictU32 : Dict := fun _ _ _ => some .unsigned32

/-- A concrete CER request message: command code 257, R-bit set,
HopByHop 70, EndToEnd 71, no AVPs of interest. -/
def cerMsg0 : Msg :=
  { cmdCode := 257, appID := 0, hopByHop := 70, endToEnd := 71,
    flags := RequestFlag, avps := [] }

/-- A concrete AVP that is well-formed for the codec: no V-bit,
vendor 0, `Length = 8 + 4`. -/
def avpW : AVP :=
  { Code := 1, Flags := 0, Length := 12, VendorID := 0,
    Data := some (.unsigned32 9) }

/-- A concrete AVP whose V-bit is clear while its VendorID is 7: the
vendor id is not written by `SerializeTo` and decodes as 0. -/
def avpNoV : AVP :=
  { Code := 1, Flags := 0, Length := 12, VendorID := 7,
    Data := some (.unsigned32 9) }

/-- Concrete settings for the CER-handler instances. -/
def cfg0 : Settings :=
  { OriginHost := 1, OriginRealm := 2, VendorID := 13,
    ProductName := 3, FirmwareRevision := 1 }

/-- The bytes `AVP.SerializeTo` writes for an AVP with data `d`
(header, optional vendor id, payload, zero padding); the buffer
`Serialize` allocates coincides with these bytes exactly when the
stored `Length` equals `headerLen + Data.Len()`. -/
def serBytes (a : AVP) (d : Dval) : List Nat :=
  be32 a.Code ++ [a.Flags] ++ uint32to24 (headerLenOf a.Flags + d.dlen) ++
  (if a.Flags &&& 128 = 128 then be32 a.VendorID else []) ++
  d.wire ++ List.replicate d.pad 0

/-- An empty parsed-CER record for concrete instances. -/
def cer6 : CERData :=
  { originStateID := none, inbandSecurityID := none,
    acctApplicationID := [], authApplicationID := [],
    vendorSpecificApplicationID := [] }

/-- A parse outcome that fails pointing at AVP token 6. -/
def parse6 : Msg → CerParse :=
  fun _ => { cer := cer6, failedAVP := some 6, failed := true }

/-- A parse outcome that fails with no failed AVP. -/
def parseNoFa : Msg → CerParse :=
  fun _ => { cer := cer6, failedAVP := none, failed := true }

/-- Whether an answer AVP is the Failed-AVP grouped AVP. -/
def isFailedGrouped : OutAVP -> Bool
  | .failedGrouped _ => true
  | _ => false

/-!
## Arithmetic and codec lemmas
-/

theorem be32_length (x : Nat) : (be32 x).length = 4 := rfl

theorem uint32to24_length (x : Nat) : (uint32to24 x).length = 3 := rfl

theorem beVal_be32 (x : Nat) : beVal (be32 x) = x % 4294967296 := by
  simp only [beVal, be32, List.foldl]
  omega

theorem uint24to32_uint32to24 (x : Nat) (h : x < 16777216) :
    uint24to32 (uint32to24 x) = x := by
  simp [uint24to32, uint32to24, List.getD]
  omega

theorem Dval.wire_length (d : Dval) : d.wire.length = d.dlen := by
  cases d <;> rfl

theorem pad4_ge (n : Nat) : n ≤ pad4 n := by
  simp only [pad4]; omega

theorem pad4_mod (n : Nat) : pad4 n % 4 = 0 := by
  simp only [pad4]; omega

theorem dtypeDecode_wire (d : Dval) (h : d.WF) :
    dtypeDecode d.dtype d.wire = .ok d := by
  cases d with
  | octetString bs => rfl
  | utf8String bs => rfl
  | diameterIdentity bs => rfl
  | unsigned32 n =>
      simp only [Dval.WF] at h
      simp only [dtypeDecode, Dval.dtype, Dval.wire, be32_length, if_pos]
      rw [beVal_be32, Nat.mod_eq_of_lt h]
  | time n =>
      simp only [Dval.WF] at h
      simp only [dtypeDecode, Dval.dtype, Dval.wire, be32_length, if_pos]
      rw [beVal_be32, Nat.mod_eq_of_lt h]
  | unsigned64 n =>
      simp only [Dval.WF] at h
      simp only [dtypeDecode, Dval.dtype, Dval.wire, List.length_cons,
        List.length_nil, if_pos]
      simp only [beVal, List.foldl, Dval.wire.x8]
      norm_num
      omega

theorem and_128_iff (x : Nat) : x &&& 128 = 128 ↔ x.testBit 7 = true := by
  rw [show (128 : Nat) = 2 ^ 7 from rfl, Nat.and_two_pow]
  rcases h : x.testBit 7 <;> simp [h]

theorem lor_128_vbit (x : Nat) : (x ||| 128) &&& 128 = 128 := by
  rw [and_128_iff, Nat.testBit_lor]
  have : Nat.testBit 128 7 = true := by decide
  simp [this]

theorem serBytes_length (a : AVP) (d : Dval) :
    (serBytes a d).length = headerLenOf a.Flags + d.dlen + d.pad := by
  by_cases h : a.Flags &&& 128 = 128 <;>
    simp [serBytes, Dval.wire_length, headerLenOf, h, be32_length,
      uint32to24_length] <;> omega

theorem serialize_eq (a : AVP) (d : Dval) (hd : a.Data = some d)
    (hlen : a.Length = headerLenOf a.Flags + d.dlen) :
    serialize a = .ok (serBytes a d) := by
  have hp : d.pad = (4 - d.dlen % 4) % 4 := rfl
  have hw := Dval.wire_length d
  by_cases hV : a.Flags &&& 128 = 128
  · have hhl : headerLenOf a.Flags = 12 := by simp [headerLenOf, hV]
    have hlen4 : pad4 a.Length = 12 + d.dlen + d.pad := by
      rw [hlen, hhl]; simp only [pad4]; omega
    simp only [serialize, hd, serializeTo, AVP.goLen, List.length_replicate,
      hlen4, hhl, hw, hV]
    rw [if_neg (by omega), if_neg (by simp; omega), if_neg (by omega),
      if_neg (by omega)]
    simp [serBytes, headerLenOf, hV, hhl, List.drop_replicate]
  · have hhl : headerLenOf a.Flags = 8 := by simp [headerLenOf, hV]
    have hlen4 : pad4 a.Length = 8 + d.dlen + d.pad := by
      rw [hlen, hhl]; simp only [pad4]; omega
    simp only [serialize, hd, serializeTo, AVP.goLen, List.length_replicate,
      hlen4, hhl, hw]
    rw [if_neg (by omega), if_neg (by simp [hV]), if_neg (by omega),
      if_neg (by omega)]
    simp [serBytes, headerLenOf, hV, List.drop_replicate]

theorem serBytes_take4 (a : AVP) (d : Dval) :
    (serBytes a d).take 4 = be32 a.Code := by
  rw [show serBytes a d = be32 a.Code ++
      ([a.Flags] ++ (uint32to24 (headerLenOf a.Flags + d.dlen) ++
       ((if a.Flags &&& 128 = 128 then be32 a.VendorID else []) ++
        (d.wire ++ List.replicate d.pad 0)))) from by simp [serBytes]]
  exact List.take_left' (be32_length a.Code)

theorem serBytes_getD4 (a : AVP) (d : Dval) :
    (serBytes a d).getD 4 0 = a.Flags := by
  rw [show serBytes a d = be32 a.Code ++
      (a.Flags :: (uint32to24 (headerLenOf a.Flags + d.dlen) ++
       ((if a.Flags &&& 128 = 128 then be32 a.VendorID else []) ++
        (d.wire ++ List.replicate d.pad 0)))) from by simp [serBytes]]
  rw [List.getD_append_right _ _ _ _ (by simp [be32])]
  simp [be32]

theorem serBytes_lenField (a : AVP) (d : Dval) :
    ((serBytes a d).drop 5).take 3 =
      uint32to24 (headerLenOf a.Flags + d.dlen) := by
  rw [show serBytes a d = (be32 a.Code ++ [a.Flags]) ++
      (uint32to24 (headerLenOf a.Flags + d.dlen) ++
       ((if a.Flags &&& 128 = 128 then be32 a.VendorID else []) ++
        (d.wire ++ List.replicate d.pad 0))) from by simp [serBytes]]
  rw [List.drop_left' (by simp [be32])]
  exact List.take_left' (uint32to24_length _)

theorem serBytes_core_V (a : AVP) (d : Dval) (hV : a.Flags &&& 128 = 128) :
    (serBytes a d).take (12 + d.dlen) =
      (be32 a.Code ++ [a.Flags] ++
       uint32to24 (headerLenOf a.Flags + d.dlen) ++ be32 a.VendorID) ++
      d.wire := by
  rw [show serBytes a d = ((be32 a.Code ++ [a.Flags] ++
      uint32to24 (headerLenOf a.Flags + d.dlen) ++ be32 a.VendorID) ++
      d.wire) ++ List.replicate d.pad 0 from by simp [serBytes, hV]]
  exact List.take_left'
    (by simp [be32, uint32to24, Dval.wire_length]; omega)

theorem serBytes_vendor_V (a : AVP) (d : Dval)
    (hV : a.Flags &&& 128 = 128) :
    (((serBytes a d).take (12 + d.dlen)).drop 8).take 4 =
      be32 a.VendorID := by
  rw [serBytes_core_V a d hV]
  rw [show (be32 a.Code ++ [a.Flags] ++
      uint32to24 (headerLenOf a.Flags + d.dlen) ++ be32 a.VendorID) ++
      d.wire = (be32 a.Code ++ [a.Flags] ++
      uint32to24 (headerLenOf a.Flags + d.dlen)) ++
      (be32 a.VendorID ++ d.wire) from by simp]
  rw [List.drop_left' (by simp [be32, uint32to24])]
  exact List.take_left' (be32_length _)

theorem serBytes_payload_V (a : AVP) (d : Dval)
    (hV : a.Flags &&& 128 = 128) :
    ((serBytes a d).take (12 + d.dlen)).drop 12 = d.wire := by
  rw [serBytes_core_V a d hV]
  exact List.drop_left' (by simp [be32, uint32to24])

theorem serBytes_payload_nV (a : AVP) (d : Dval)
    (hV : ¬a.Flags &&& 128 = 128) :
    ((serBytes a d).take (8 + d.dlen)).drop 8 = d.wire := by
  rw [show serBytes a d = ((be32 a.Code ++ [a.Flags] ++
      uint32to24 (headerLenOf a.Flags + d.dlen)) ++ d.wire) ++
      List.replicate d.pad 0 from by simp [serBytes, hV]]
  rw [List.take_left'
    (by simp [be32, uint32to24, Dval.wire_length]; omega)]
  exact List.drop_left' (by simp [be32, uint32to24])

theorem decode_serBytes (a : AVP) (d : Dval) (app : Nat) (dict : Dict)
    (hd : a.Data = some d)
    (hdict : dict app a.Code a.VendorID = some d.dtype)
    (hcode : a.Code < 4294967296)
    (hven : a.VendorID < 4294967296)
    (hv0 : ¬a.Flags &&& 128 = 128 → a.VendorID = 0)
    (h24 : headerLenOf a.Flags + d.dlen < 16777216)
    (hwf : d.WF)
    (hlen : a.Length = headerLenOf a.Flags + d.dlen) :
    decodeAVP (serBytes a d) app dict = .ok a := by
  have hBlen := serBytes_length a d
  have hwlen := Dval.wire_length d
  simp only [decodeAVP, serBytes_take4, serBytes_getD4, serBytes_lenField,
    beVal_be32, Nat.mod_eq_of_lt hcode, uint24to32_uint32to24 _ h24]
  by_cases hV : a.Flags &&& 128 = 128
  · have hhl : headerLenOf a.Flags = 12 := by simp [headerLenOf, hV]
    have hL12 : a.Length = 12 + d.dlen := by rw [hlen, hhl]
    rw [hBlen, hhl]
    rw [if_neg (by omega), if_neg (by omega), if_pos hV, if_neg (by omega)]
    rw [serBytes_vendor_V a d hV, serBytes_payload_V a d hV, beVal_be32,
      Nat.mod_eq_of_lt hven]
    simp only [decodeTail, hdict]
    rw [if_neg (by omega)]
    rw [dtypeDecode_wire d hwf]
    exact congrArg Except.ok (by rw [← hL12, ← hd])
  · have hhl : headerLenOf a.Flags = 8 := by simp [headerLenOf, hV]
    have hL8 : a.Length = 8 + d.dlen := by rw [hlen, hhl]
    rw [hBlen, hhl]
    rw [if_neg (by omega), if_neg (by omega), if_neg hV, if_neg (by omega)]
    rw [serBytes_payload_nV a d hV]
    have hv := hv0 hV
    rw [hv] at hdict
    simp only [decodeTail, hdict]
    rw [if_neg (by omega)]
    rw [dtypeDecode_wire d hwf]
    exact congrArg Except.ok (by rw [← hL8, ← hv, ← hd])

theorem serBytes_drop8_V (a : AVP) (d : Dval) (hV : a.Flags &&& 128 = 128) :
    (serBytes a d).drop 8 =
      be32 a.VendorID ++ (d.wire ++ List.replicate d.pad 0) := by
  rw [show serBytes a d = (be32 a.Code ++ [a.Flags] ++
      uint32to24 (headerLenOf a.Flags + d.dlen)) ++
      (be32 a.VendorID ++ (d.wire ++ List.replicate d.pad 0)) from by
    simp [serBytes, hV]]
  exact List.drop_left' (by simp [be32, uint32to24])

theorem serBytes_drop8_nV (a : AVP) (d : Dval)
    (hV : ¬a.Flags &&& 128 = 128) :
    (serBytes a d).drop 8 = d.wire ++ List.replicate d.pad 0 := by
  rw [show serBytes a d = (be32 a.Code ++ [a.Flags] ++
      uint32to24 (headerLenOf a.Flags + d.dlen)) ++
      (d.wire ++ List.replicate d.pad 0) from by simp [serBytes, hV]]
  exact List.drop_left' (by simp [be32, uint32to24])

theorem serBytes_drop12_V (a : AVP) (d : Dval)
    (hV : a.Flags &&& 128 = 128) :
    (serBytes a d).drop 12 = d.wire ++ List.replicate d.pad 0 := by
  rw [show serBytes a d = (be32 a.Code ++ [a.Flags] ++
      uint32to24 (headerLenOf a.Flags + d.dlen) ++ be32 a.VendorID) ++
      (d.wire ++ List.replicate d.pad 0) from by simp [serBytes, hV]]
  exact List.drop_left' (by simp [be32, uint32to24])

theorem lor_32_ebit (x : Nat) : (x ||| 32) &&& 32 = 32 := by
  rw [show (32 : Nat) = 2 ^ 5 from rfl, Nat.and_two_pow, Nat.testBit_lor]
  have : Nat.testBit 32 5 = true := by decide
  simp [this]

theorem hsRun_timeout (m : Msg) : ∀ n i,
    hsRun m (fun _ => .timeout) n i =
      { sent := List.replicate n m, outcome := .timeout, closed := true }
  | 0, _ => rfl
  | n + 1, i => by
      simp only [hsRun, hsRun_timeout m n (i + 1), List.replicate]

theorem hsRun_sent_replicate (m : Msg) (env : Nat → HsEvent) : ∀ n i,
    (hsRun m env n i).sent = List.replicate (hsRun m env n i).sent.length m
  | 0, _ => rfl
  | n + 1, i => by
      cases h : env i with
      | ceaOk => simp [hsRun, h, List.replicate]
      | ceaErr => simp [hsRun, h, List.replicate]
      | timeout =>
          have ih := hsRun_sent_replicate m env n (i + 1)
          simp only [hsRun, h]
          show m :: (hsRun m env n (i + 1)).sent =
            List.replicate (m :: (hsRun m env n (i + 1)).sent).length m
          rw [List.length_cons, List.replicate_succ]
          exact congrArg (m :: ·) ih

theorem dwrRun_sent_replicate (m : Msg) (env : Nat → Bool) : ∀ n i,
    (dwrRun m env n i).1 = List.replicate (dwrRun m env n i).1.length m
  | 0, _ => rfl
  | n + 1, i => by
      by_cases h : env i
      · simp [dwrRun, h, List.replicate]
      · have ih := dwrRun_sent_replicate m env n (i + 1)
        simp only [dwrRun, if_neg h]
        show m :: (dwrRun m env n (i + 1)).1 =
          List.replicate (m :: (dwrRun m env n (i + 1)).1).length m
        rw [List.length_cons, List.replicate_succ]
        exact congrArg (m :: ·) ih

/-!
## Claim theorems
-/

/-- C1 counterexample.  The claim quantifies over every AVP with non-nil
data whose dictionary entry resolves.  Two such AVPs falsify it:
`avpNoV` (V-bit clear, VendorID 7) encodes without its vendor id, so the
decode of its encoding has VendorID 0, not 7; and `newAVP 1 0 5 (u32 7)`
(the constructor output for vendor 5 without a pre-set V-bit) has a
stored Length of 12 while its header length is 12 and payload 4, so
`Serialize` allocates a 12-byte buffer and the Go code panics — no byte
sequence is produced at all. -/
theorem C1_counterexample :
    (avpNoV.Data ≠ none ∧
     dictU32 0 avpNoV.Code avpNoV.VendorID = some .unsigned32 ∧
     serialize avpNoV = .ok [0, 0, 0, 1, 0, 0, 0, 12, 0, 0, 0, 9] ∧
     decodeAVP [0, 0, 0, 1, 0, 0, 0, 12, 0, 0, 0, 9] 0 dictU32 =
       .ok { avpNoV with VendorID := 0 } ∧
     avpNoV.VendorID ≠ 0) ∧
    ((newAVP 1 0 5 (.unsigned32 7)).Data ≠ none ∧
     serialize (newAVP 1 0 5 (.unsigned32 7)) = .error .outOfRange) := by
  decide

/-- C1 (amended): for every AVP whose data is non-nil, whose dictionary
entry resolves to the data's declared type, whose V-bit agrees with
`vendor ≠ 0`, whose stored Length is `headerLen + Data.Len()` (below the
u24 bound), and whose numeric fields are within their Go widths,
decoding the bytes produced by encoding the AVP yields the AVP back
exactly, and the encoded length is a multiple of 4. -/
theorem C1_roundtrip (a : AVP) (d : Dval) (app : Nat) (dict : Dict)
    (hd : a.Data = some d)
    (hdict : dict app a.Code a.VendorID = some d.dtype)
    (hvbit : a.Flags &&& 128 = 128 ↔ a.VendorID ≠ 0)
    (hlen : a.Length = a.headerLen + d.dlen)
    (h24 : a.Length < 16777216)
    (hwf : d.WF)
    (hcode : a.Code < 4294967296)
    (hven : a.VendorID < 4294967296) :
    ∃ bs, serialize a = .ok bs ∧ bs.length % 4 = 0 ∧
      decodeAVP bs app dict = .ok a := by
  have hlen' : a.Length = headerLenOf a.Flags + d.dlen := hlen
  refine ⟨serBytes a d, serialize_eq a d hd hlen', ?_, ?_⟩
  · rw [serBytes_length a d]
    have hp : d.pad = (4 - d.dlen % 4) % 4 := rfl
    have : headerLenOf a.Flags = 12 ∨ headerLenOf a.Flags = 8 := by
      unfold headerLenOf; split <;> simp
    omega
  · exact decode_serBytes a d app dict hd hdict hcode hven
      (fun hnv => by
        rcases Decidable.em (a.VendorID = 0) with h0 | h0
        · exact h0
        · exact absurd (hvbit.mpr h0) hnv)
      (by omega) hwf hlen'

/-- C1 witness: the amended round trip at the concrete AVP `avpW`. -/
theorem C1_roundtrip_witness :
    ∃ bs, serialize avpW = .ok bs ∧ bs.length % 4 = 0 ∧
      decodeAVP bs 0 dictU32 = .ok avpW :=
  C1_roundtrip avpW (.unsigned32 9) 0 dictU32 rfl rfl (by decide)
    (by decide) (by decide) (by decide) (by decide) (by decide)

/-- C2: `NewAVP(1, 0, 5, Unsigned32 7)` — vendor 5, V-bit not pre-set —
stores `Length = 12` (the header length was evaluated as 8 before the
V-bit was OR-ed in), while the constructed AVP's header length is 12 and
its payload length 4, so the claimed `Length = 12 + data.Len() = 16`
does not hold. -/
theorem C2_newAVP_length_bug :
    (newAVP 1 0 5 (.unsigned32 7)).Length = 12 ∧
    (newAVP 1 0 5 (.unsigned32 7)).headerLen = 12 ∧
    (newAVP 1 0 5 (.unsigned32 7)).headerLen +
      (Dval.unsigned32 7).dlen = 16 := by
  decide

/-- C3 counterexample: `NewAVP(1, 0x80, 0, Unsigned32 7)` has vendor 0
yet its V-bit set — the constructor never clears a pre-set V-bit, so
the V-bit is not "clear when vendor = 0 for every flags argument". -/
theorem C3_counterexample :
    (newAVP 1 128 0 (.unsigned32 7)).Flags &&& 128 = 128 ∧
    (newAVP 1 128 0 (.unsigned32 7)).VendorID = 0 := by
  decide

/-- C3 (amended): the V-bit of `NewAVP(code, flags, vendor, data)` is
set if and only if `vendor ≠ 0` or the caller pre-set the V-bit in
`flags`; in particular, when the flags argument has the V-bit clear, the
result's V-bit is set exactly when `vendor ≠ 0`. -/
theorem C3_vbit (code flags vendor : Nat) (d : Dval) :
    ((newAVP code flags vendor d).Flags &&& 128 = 128) ↔
      (vendor ≠ 0 ∨ flags &&& 128 = 128) := by
  unfold newAVP
  by_cases h : vendor > 0 ∧ ¬flags &&& 128 = 128
  · rw [if_pos h]
    simp only [lor_128_vbit, true_iff]
    exact Or.inl (by omega)
  · rw [if_neg h]
    by_cases hX : flags &&& 128 = 128
    · simp [hX]
    · have h0 : vendor = 0 := by
        rcases Decidable.em (vendor = 0) with h0 | h0
        · exact h0
        · exact absurd ⟨by omega, hX⟩ h
      simp [hX, h0]

/-- C4: `DecodeFromBytes` fails with the short-header error on every
input of fewer than 8 bytes, and fails with the truncated error on every
input of at least 8 bytes whose byte count is below the length declared
in bytes 5..8; in both cases no AVP is returned (the result is an
error). -/
theorem C4_decode_errors (data : List Nat) (app : Nat) (dict : Dict) :
    (data.length < 8 → decodeAVP data app dict = .error .shortHeader) ∧
    (8 ≤ data.length →
      data.length < uint24to32 ((data.drop 5).take 3) →
      decodeAVP data app dict = .error .truncated) := by
  constructor
  · intro h
    simp [decodeAVP, h]
  · intro h8 hlt
    simp only [decodeAVP]
    rw [if_neg (by omega), if_pos hlt]

/-- C4 witness: a 4-byte input gives the short-header error; a 12-byte
input declaring length 20 gives the truncated error. -/
theorem C4_witness :
    decodeAVP [0, 0, 0, 1] 0 dictU32 = .error .shortHeader ∧
    decodeAVP [0, 0, 0, 1, 0, 0, 0, 20, 0, 0, 0, 0] 0 dictU32 =
      .error .truncated :=
  ⟨(C4_decode_errors [0, 0, 0, 1] 0 dictU32).1 (by decide),
   (C4_decode_errors [0, 0, 0, 1, 0, 0, 0, 20, 0, 0, 0, 0] 0 dictU32).2
     (by decide) (by decide)⟩

/-- C5 counterexample: for `NewAVP(1, 0, 5, Unsigned32 7)` — whose
stored Length (12) differs from `headerLen + data.Len()` (16) —
`Serialize` allocates `Len() = ⌈12/4⌉·4 = 12` bytes, not
`⌈16/4⌉·4 = 16` as claimed, and the write then runs out of the buffer
(a Go panic), so no length field or zero padding is written at all. -/
theorem C5_counterexample :
    (newAVP 1 0 5 (.unsigned32 7)).goLen = 12 ∧
    headerLenOf (newAVP 1 0 5 (.unsigned32 7)).Flags +
      (Dval.unsigned32 7).dlen = 16 ∧
    pad4 16 = 16 ∧
    serialize (newAVP 1 0 5 (.unsigned32 7)) = .error .outOfRange := by
  decide

/-- C5 (amended): `SerializeTo` fails with the nil-data error exactly
when Data is nil.  For non-nil data and a buffer at least
`headerLen + data.Len() + padding` long, it succeeds and writes the
header and payload bytes `serBytes` (followed by the untouched rest of
the buffer): the length field (bytes 5..8) is `uint24(headerLen +
data.Len())` recomputed from the data rather than the stored Length;
the vendor id occupies bytes 8..12 exactly when the V-bit is set and the
payload starts at byte 8 otherwise; all bytes after the payload up to
the padded size are zero.  `Serialize` allocates `⌈storedLength/4⌉·4`
bytes — which is `⌈(headerLen+data.Len())/4⌉·4` when the stored Length
equals `headerLen + data.Len()`, and in that case it returns exactly
`serBytes`. -/
theorem C5_serialize_spec (a : AVP) (b : List Nat) :
    (serializeTo a b = .error .nilData ↔ a.Data = none) ∧
    (∀ d, a.Data = some d →
      headerLenOf a.Flags + d.dlen + d.pad ≤ b.length →
      serializeTo a b =
        .ok (serBytes a d ++
          b.drop (headerLenOf a.Flags + d.dlen + d.pad)) ∧
      ((serBytes a d).drop 5).take 3 =
        uint32to24 (headerLenOf a.Flags + d.dlen) ∧
      (a.Flags &&& 128 = 128 →
        ((serBytes a d).drop 8).take 4 = be32 a.VendorID) ∧
      (¬a.Flags &&& 128 = 128 →
        (serBytes a d).drop 8 = d.wire ++ List.replicate d.pad 0) ∧
      (a.Flags &&& 128 = 128 →
        (serBytes a d).drop 12 = d.wire ++ List.replicate d.pad 0) ∧
      (serBytes a d).length = pad4 (headerLenOf a.Flags + d.dlen)) ∧
    (∀ d, a.Data = some d →
      a.Length = headerLenOf a.Flags + d.dlen →
      serialize a = .ok (serBytes a d)) := by
  refine ⟨?_, ?_, ?_⟩
  · cases hD : a.Data with
    | none => simp [serializeTo, hD]
    | some d =>
        simp only [serializeTo, hD]
        refine iff_of_false ?_ (by simp)
        split
        · simp
        · split
          · simp
          · split
            · simp
            · split <;> simp
  · intro d hD hb
    have hw := Dval.wire_length d
    have hhl : headerLenOf a.Flags = 12 ∨ headerLenOf a.Flags = 8 := by
      unfold headerLenOf; split <;> simp
    refine ⟨?_, serBytes_lenField a d, ?_, ?_, ?_, ?_⟩
    · have hc1 : ¬b.length < 8 := by omega
      have hc2 : ¬(a.Flags &&& 128 = 128 ∧ b.length < 12) := by
        rintro ⟨hV, hlt⟩
        have h12 : headerLenOf a.Flags = 12 := by simp [headerLenOf, hV]
        omega
      have hc3 : ¬b.length < headerLenOf a.Flags + d.wire.length := by
        rw [hw]; omega
      have hc4 :
          ¬b.length < headerLenOf a.Flags + d.wire.length + d.pad := by
        rw [hw]; omega
      simp only [serializeTo, hD]
      rw [if_neg hc1, if_neg hc2, if_neg hc3, if_neg hc4, hw]
      simp [serBytes, List.append_assoc]
    · intro hV
      rw [serBytes_drop8_V a d hV]
      exact List.take_left' (be32_length _)
    · intro hV
      exact serBytes_drop8_nV a d hV
    · intro hV
      exact serBytes_drop12_V a d hV
    · rw [serBytes_length a d]
      have hp : d.pad = (4 - d.dlen % 4) % 4 := rfl
      simp only [pad4]
      omega
  · intro d hD hL
    exact serialize_eq a d hD hL

/-- C5 witness: the amended serialization at the concrete AVP `avpW`
with a 12-byte buffer. -/
theorem C5_serialize_spec_witness :
    (serializeTo avpW (List.replicate 12 0) = .error .nilData ↔
      avpW.Data = none) ∧
    serializeTo avpW (List.replicate 12 0) =
      .ok (serBytes avpW (.unsigned32 9) ++
        (List.replicate 12 (0 : Nat)).drop 12) ∧
    serialize avpW = .ok (serBytes avpW (.unsigned32 9)) :=
  ⟨(C5_serialize_spec avpW (List.replicate 12 0)).1,
   ((C5_serialize_spec avpW (List.replicate 12 0)).2.1 (.unsigned32 9)
     rfl (by decide)).1,
   (C5_serialize_spec avpW (List.replicate 12 0)).2.2 (.unsigned32 9)
     rfl (by decide)⟩

/-- C6: when the connection context holds no peer metadata and the CER
parse fails, `handleCER` closes without an answer if no failed AVP was
reported, and otherwise writes exactly one answer — the error CEA with
the E-bit set, the request's HopByHop/EndToEnd, result code
`NoCommonSecurity` precisely when the failed AVP is the CER's
Inband-Security-Id AVP and `NoCommonApplication` otherwise, whose only
Failed-AVP grouped AVP carries exactly the offending AVP — and then
closes the connection. -/
theorem C6_handleCER_error (cfg : Settings) (parse : Msg → CerParse)
    (meta : Nat) (c : ConnState) (m : Msg)
    (hctx : c.ctxPeer = none) (hfail : (parse m).failed = true) :
    ((parse m).failedAVP = none →
      handleCER cfg parse meta c m = { c with closed := true }) ∧
    (∀ fa, (parse m).failedAVP = some fa →
      handleCER cfg parse meta c m =
        { c with sent := c.sent ++ [errorCEAMsg cfg m (parse m).cer fa],
                 closed := true } ∧
      (errorCEAMsg cfg m (parse m).cer fa).flags &&& 32 = 32 ∧
      (errorCEAMsg cfg m (parse m).cer fa).hopByHop = m.hopByHop ∧
      (errorCEAMsg cfg m (parse m).cer fa).endToEnd = m.endToEnd ∧
      (errorCEAMsg cfg m (parse m).cer fa).avps.filter isFailedGrouped =
        [OutAVP.failedGrouped [fa]] ∧
      OutAVP.resultCodeAVP
        (if (parse m).cer.inbandSecurityID = some fa then NoCommonSecurity
         else NoCommonApplication) ∈
        (errorCEAMsg cfg m (parse m).cer fa).avps) := by
  constructor
  · intro hfa
    simp [handleCER, hctx, hfail, hfa]
  · intro fa hfa
    refine ⟨?_, lor_32_ebit (m.flags &&& ProxiableFlag), rfl, rfl, ?_, ?_⟩
    · simp [handleCER, hctx, hfail, hfa]
    · rcases hos : (parse m).cer.originStateID with _ | t <;>
        by_cases hfw : cfg.FirmwareRevision ≠ 0 <;>
        simp [errorCEAMsg, Msg.answer, hos, hfw, isFailedGrouped]
    · simp [errorCEAMsg, Msg.answer]

/-- C6 witness: the error path at concrete inputs — failed AVP token 6
(not the Inband-Security-Id AVP), and a parse failure without a failed
AVP. -/
theorem C6_witness :
    handleCER cfg0 parse6 7
        { ctxPeer := none, sent := [], closed := false } cerMsg0 =
      { ctxPeer := none, sent := [errorCEAMsg cfg0 cerMsg0 cer6 6],
        closed := true } ∧
    (errorCEAMsg cfg0 cerMsg0 cer6 6).flags &&& 32 = 32 ∧
    handleCER cfg0 parseNoFa 7
        { ctxPeer := none, sent := [], closed := false } cerMsg0 =
      { ctxPeer := none, sent := [], closed := true } :=
  ⟨((C6_handleCER_error cfg0 parse6 7
      { ctxPeer := none, sent := [], closed := false } cerMsg0 rfl rfl).2
      6 rfl).1,
   ((C6_handleCER_error cfg0 parse6 7
      { ctxPeer := none, sent := [], closed := false } cerMsg0 rfl rfl).2
      6 rfl).2.1,
   (C6_handleCER_error cfg0 parseNoFa 7
      { ctxPeer := none, sent := [], closed := false } cerMsg0 rfl rfl).1
      rfl⟩

/-- C7: when no CEA ever arrives (every select times out), the client
handshake writes the CER exactly `MaxRetransmits + 1` times, closes the
connection, and returns the handshake-timeout error. -/
theorem C7_handshake_timeout (maxRetransmits : Nat) (m : Msg) :
    clientHandshake maxRetransmits m (fun _ => .timeout) =
      { sent := List.replicate (maxRetransmits + 1) m,
        outcome := .timeout, closed := true } ∧
    (clientHandshake maxRetransmits m
      (fun _ => .timeout)).sent.length = maxRetransmits + 1 := by
  constructor
  · exact hsRun_timeout m (maxRetransmits + 1) 0
  · simp [clientHandshake, hsRun_timeout]

/-- C8 counterexample: with `MaxRetransmits = 1` and no CEA, the
handshake writes the CER twice, and the second (retransmitted) send is
the identical message with the T-bit (0x10) clear — the claim's
"T-bit set on every send except the first" fails. -/
theorem C8_counterexample :
    (clientHandshake 1 cerMsg0 (fun _ => .timeout)).sent =
      [cerMsg0, cerMsg0] ∧
    ((clientHandshake 1 cerMsg0 (fun _ => .timeout)).sent.getD 1
      cerMsg0).flags &&& 16 = 0 := by
  decide

/-- C8 (amended): in both the handshake and the watchdog loops, every
send — under any environment — is the identical message `m`, so all
sends reuse the same HopByHop and EndToEnd identifiers and carry the
same command flags as the first send; in particular the T-bit is never
set on a retransmit. -/
theorem C8_retransmit_same_message (maxRetransmits : Nat) (m : Msg)
    (envH : Nat → HsEvent) (envD : Nat → Bool) :
    (clientHandshake maxRetransmits m envH).sent =
      List.replicate
        (clientHandshake maxRetransmits m envH).sent.length m ∧
    (clientDwr maxRetransmits m envD).1 =
      List.replicate (clientDwr maxRetransmits m envD).1.length m :=
  ⟨hsRun_sent_replicate m envH (maxRetransmits + 1) 0,
   dwrRun_sent_replicate m envD (maxRetransmits + 1) 0⟩

/-- C9: the codec is not total.  Decoding the 9-byte input with the
V-bit set and declared length 9 reaches the Go slice expression
`data[12:]` on a buffer cut to 9 bytes — a slice-bounds panic, not an
error return; and `SerializeTo` oversteps the `⌈Length/4⌉·4`-byte buffer
when that allocation falls short of `headerLen + data.Len() + padding`,
as it does for every `NewAVP` output with a nonzero vendor and no
pre-set V-bit (there the stored Length was computed with an 8-byte
header while the write uses the 12-byte one). -/
theorem C9_bounds_violations :
    decodeAVP [0, 0, 0, 1, 128, 0, 0, 9, 0] 0 dictU32 =
      .error .outOfRange ∧
    (newAVP 1 0 5 (.unsigned32 7)).Data ≠ none ∧
    serialize (newAVP 1 0 5 (.unsigned32 7)) = .error .outOfRange := by
  decide

/-- C10: once the connection context holds peer metadata, a further CER
leaves the connection state untouched: nothing is written, the context
keeps its value, and the connection is not closed. -/
theorem C10_ignore_repeated_cer (cfg : Settings) (parse : Msg → CerParse)
    (meta : Nat) (c : ConnState) (m : Msg) (p : Nat)
    (h : c.ctxPeer = some p) :
    handleCER cfg parse meta c m = c := by
  simp [handleCER, h]

/-- C10 witness: a CER on a connection whose context holds peer
metadata token 3 changes nothing. -/
theorem C10_witness :
    handleCER cfg0 parse6 7
      { ctxPeer := some 3, sent := [], closed := false } cerMsg0 =
      { ctxPeer := some 3, sent := [], closed := false } :=
  C10_ignore_repeated_cer cfg0 parse6 7
    { ctxPeer := some 3, sent := [], closed := false } cerMsg0 3 rfl
